import Mathlib

/-!
Verification of the `cli_utils::colors` module: ANSI escape-code formatting
helpers (`red`, `green`, `blue`, `bold`, `reset`) and the `ColorString`
value type with its `paint` and `reset` operations, embedded from
`src/examples/cli-utils/src/colors.rs`.
-/

namespace Colors

/-- Embeds `pub fn red(s: &str) -> String { format!("\x1b[31m{}\x1b[0m", s) }`. -/
def red (s : String) : String := "\x1b[31m" ++ s ++ "\x1b[0m"

/-- Embeds `pub fn green(s: &str) -> String { format!("\x1b[32m{}\x1b[0m", s) }`. -/
def green (s : String) : String := "\x1b[32m" ++ s ++ "\x1b[0m"

/-- Embeds `pub fn blue(s: &str) -> String { format!("\x1b[34m{}\x1b[0m", s) }`. -/
def blue (s : String) : String := "\x1b[34m" ++ s ++ "\x1b[0m"

/-- Embeds `pub fn bold(s: &str) -> String { format!("\x1b[1m{}\x1b[0m", s) }`. -/
def bold (s : String) : String := "\x1b[1m" ++ s ++ "\x1b[0m"

/-- Embeds `pub fn reset(s: &str) -> String { format!("\x1b[0m{}\x1b[0m", s) }`. -/
def reset (s : String) : String := "\x1b[0m" ++ s ++ "\x1b[0m"

/-- Embeds `pub enum Color { Red, Green, Blue, Bold }`. -/
inductive Color
  | Red
  | Green
  | Blue
  | Bold

/-- Embeds `pub struct ColorString { colors: Color, string: String, colorized: String }`. -/
structure ColorString where
  colors : Color
  string : String
  colorized : String

/-- Embeds `ColorString::paint`: matches on the color field and stores the
matching formatter applied to the string field into the colorized field. -/
def ColorString.paint (c : ColorString) : ColorString :=
  match c.colors with
  | Color.Red => { c with colorized := red c.string }
  | Color.Green => { c with colorized := green c.string }
  | Color.Blue => { c with colorized := blue c.string }
  | Color.Bold => { c with colorized := bold c.string }

/-- Embeds `ColorString::reset`: stores `reset(&self.string)` into the
colorized field. -/
def ColorString.reset (c : ColorString) : ColorString :=
  { c with colorized := Colors.reset c.string }

/-! Helper lemma: UTF-8 byte size is additive over string append. -/

theorem utf8ByteSize_append (a b : String) :
    (a ++ b).utf8ByteSize = a.utf8ByteSize + b.utf8ByteSize := by
  cases a with
  | mk l =>
    cases b with
    | mk m =>
      show String.utf8ByteSize ⟨l ++ m⟩ = _
      simp

/-- Sequences of the two mutating operations on a `ColorString`. -/
inductive Op
  | paint
  | resetStyle

/-- Apply one operation to a `ColorString`. -/
def applyOp (c : ColorString) : Op → ColorString
  | Op.paint => c.paint
  | Op.resetStyle => c.reset

/-- Apply a sequence of operations, left to right. -/
def applyOps (c : ColorString) (ops : List Op) : ColorString :=
  ops.foldl applyOp c

/-- The string begins with the escape byte 0x1B followed by the bracket. -/
def startsWithEsc (s : String) : Prop := s.data.take 2 = ['\x1b', '[']

/-- The string ends with the 4-byte reset sequence. -/
def endsWithReset (s : String) : Prop := ∃ u, s.data = u ++ "\x1b[0m".data

/-- The string contains `t` as a contiguous substring. -/
def containsText (t s : String) : Prop := ∃ u v, s.data = u ++ t.data ++ v

/-! Helper lemmas. -/

theorem ne_of_length_lt {a b : String} (h : a.length < b.length) : b ≠ a := by
  intro e
  rw [e] at h
  exact Nat.lt_irrefl _ h

theorem wrapped_endsWithReset (p t : String) :
    endsWithReset (p ++ t ++ "\x1b[0m") := by
  refine ⟨p.data ++ t.data, ?_⟩
  simp

theorem wrapped_containsText (p t q : String) :
    containsText t (p ++ t ++ q) := by
  refine ⟨p.data, q.data, ?_⟩
  simp

theorem applyOp_frame (c : ColorString) (op : Op) :
    (applyOp c op).colors = c.colors ∧ (applyOp c op).string = c.string := by
  obtain ⟨col, s, r⟩ := c
  cases op <;> cases col <;> exact ⟨rfl, rfl⟩

theorem applyOps_frame (c : ColorString) (ops : List Op) :
    (applyOps c ops).colors = c.colors ∧ (applyOps c ops).string = c.string := by
  induction ops generalizing c with
  | nil => exact ⟨rfl, rfl⟩
  | cons op ops ih =>
    have h := applyOp_frame c op
    have h2 := ih (applyOp c op)
    exact ⟨h2.1.trans h.1, h2.2.trans h.2⟩

theorem applyOp_colorized_eq (c : ColorString) (op : Op) :
    (applyOp c op).colorized =
      (applyOp (ColorString.mk c.colors c.string "") op).colorized := by
  obtain ⟨col, s, r⟩ := c
  cases op <;> cases col <;> rfl

/-! Claim theorems. -/

/-- C1: after `ColorString.reset`, the colorized field equals the `reset`
formatter applied to the source string, i.e. the source wrapped in paired
reset escape sequences, and it is not equal to the bare source string. -/
theorem reset_wraps_not_bare (c : ColorString) :
    c.reset.colorized = reset c.string ∧ c.reset.colorized ≠ c.string := by
  refine ⟨rfl, ?_⟩
  have h4 : ("\x1b[0m" : String).length = 4 := rfl
  have hlen : (reset c.string).length = c.string.length + 8 := by
    simp [reset, String.length_append, h4]
    omega
  intro h
  have hl : (reset c.string).length = c.string.length :=
    congrArg String.length h
  omega

/-- C2: each formatter returns exactly its escape prefix, then the input
text, then the reset suffix, for every text including the empty string. -/
theorem formatters_exact (t : String) :
    red t = "\x1b[31m" ++ t ++ "\x1b[0m" ∧
    green t = "\x1b[32m" ++ t ++ "\x1b[0m" ∧
    blue t = "\x1b[34m" ++ t ++ "\x1b[0m" ∧
    bold t = "\x1b[1m" ++ t ++ "\x1b[0m" ∧
    reset t = "\x1b[0m" ++ t ++ "\x1b[0m" :=
  ⟨rfl, rfl, rfl, rfl, rfl⟩

/-- C3: `paint` dispatches on the color field: each variant stores the
matching formatter applied to the string field into the colorized field. -/
theorem paint_dispatches (s col : String) :
    (ColorString.mk Color.Red s col).paint.colorized = red s ∧
    (ColorString.mk Color.Green s col).paint.colorized = green s ∧
    (ColorString.mk Color.Blue s col).paint.colorized = blue s ∧
    (ColorString.mk Color.Bold s col).paint.colorized = bold s :=
  ⟨rfl, rfl, rfl, rfl⟩

/-- C4: each formatter adds a fixed number of bytes to the text: red, green
and blue add 9, bold and reset add 8. -/
theorem formatters_byte_length (t : String) :
    (red t).utf8ByteSize = t.utf8ByteSize + 9 ∧
    (green t).utf8ByteSize = t.utf8ByteSize + 9 ∧
    (blue t).utf8ByteSize = t.utf8ByteSize + 9 ∧
    (bold t).utf8ByteSize = t.utf8ByteSize + 8 ∧
    (reset t).utf8ByteSize = t.utf8ByteSize + 8 := by
  have h31 : ("\x1b[31m" : String).utf8ByteSize = 5 := rfl
  have h32 : ("\x1b[32m" : String).utf8ByteSize = 5 := rfl
  have h34 : ("\x1b[34m" : String).utf8ByteSize = 5 := rfl
  have h1 : ("\x1b[1m" : String).utf8ByteSize = 4 := rfl
  have h0 : ("\x1b[0m" : String).utf8ByteSize = 4 := rfl
  refine ⟨?_, ?_, ?_, ?_, ?_⟩ <;>
    simp [red, green, blue, bold, reset, utf8ByteSize_append, h31, h32, h34, h1, h0] <;>
    omega

/-- C5: `paint` and `reset` mutate only the colorized field; the colors and
string fields are unchanged by either operation. -/
theorem paint_reset_frame (c : ColorString) :
    c.paint.colors = c.colors ∧ c.paint.string = c.string ∧
    c.reset.colors = c.colors ∧ c.reset.string = c.string := by
  obtain ⟨col, s, r⟩ := c
  cases col <;> exact ⟨rfl, rfl, rfl, rfl⟩

/-- C6: calling `ColorString.reset` twice yields the same colorized value as
calling it once, since it always recomputes from the string field. -/
theorem reset_idempotent (c : ColorString) :
    c.reset.reset.colorized = c.reset.colorized := rfl

/-- C7: no formatter is idempotent: applying any of the five twice changes
the bytes, and `reset (reset t)` is strictly longer in bytes than
`reset t`. -/
theorem formatters_not_idempotent (t : String) :
    red (red t) ≠ red t ∧
    green (green t) ≠ green t ∧
    blue (blue t) ≠ blue t ∧
    bold (bold t) ≠ bold t ∧
    reset (reset t) ≠ reset t ∧
    (reset t).utf8ByteSize < (reset (reset t)).utf8ByteSize := by
  have l31 : ("\x1b[31m" : String).length = 5 := rfl
  have l32 : ("\x1b[32m" : String).length = 5 := rfl
  have l34 : ("\x1b[34m" : String).length = 5 := rfl
  have l1 : ("\x1b[1m" : String).length = 4 := rfl
  have l0 : ("\x1b[0m" : String).length = 4 := rfl
  have b0 : ("\x1b[0m" : String).utf8ByteSize = 4 := rfl
  refine ⟨?_, ?_, ?_, ?_, ?_, ?_⟩
  · apply ne_of_length_lt
    simp [red, String.length_append, l31, l0]
    omega
  · apply ne_of_length_lt
    simp [green, String.length_append, l32, l0]
    omega
  · apply ne_of_length_lt
    simp [blue, String.length_append, l34, l0]
    omega
  · apply ne_of_length_lt
    simp [bold, String.length_append, l1, l0]
    omega
  · apply ne_of_length_lt
    simp [reset, String.length_append, l0]
    omega
  · simp [reset, utf8ByteSize_append, b0]
    omega

/-- C8: the operations are total: `paint` covers every variant of the color
enumeration, always producing one of the four formatters applied to the
string field, and `reset` always produces the reset formatter applied to
the string field. -/
theorem operations_total (c : ColorString) :
    (c.paint.colorized = red c.string ∨ c.paint.colorized = green c.string ∨
     c.paint.colorized = blue c.string ∨ c.paint.colorized = bold c.string) ∧
    c.reset.colorized = reset c.string := by
  obtain ⟨col, s, r⟩ := c
  refine ⟨?_, rfl⟩
  cases col
  · exact Or.inl rfl
  · exact Or.inr (Or.inl rfl)
  · exact Or.inr (Or.inr (Or.inl rfl))
  · exact Or.inr (Or.inr (Or.inr rfl))

/-- C9: history independence: after any sequence of operations ending in
`op`, the colorized field equals the result of applying `op` alone to the
original instance — the prior colorized value never influences the
outcome, and in particular `paint` is idempotent. -/
theorem last_op_determines (c : ColorString) (ops : List Op) (op : Op) :
    (applyOps c (ops ++ [op])).colorized = (applyOp c op).colorized := by
  have hfold : applyOps c (ops ++ [op]) = applyOp (applyOps c ops) op := by
    simp [applyOps, List.foldl_append]
  have h := applyOps_frame c ops
  rw [hfold, applyOp_colorized_eq (applyOps c ops) op, h.1, h.2,
    ← applyOp_colorized_eq c op]

/-- C10: every formatter output begins with the escape byte then a bracket,
ends with the 4-byte reset sequence, and contains the input text as a
contiguous substring; hence the colorized field after `paint` or `reset`
ends with the reset sequence and contains the string field verbatim. -/
theorem escape_shape (t : String) (c : ColorString) :
    (startsWithEsc (red t) ∧ startsWithEsc (green t) ∧ startsWithEsc (blue t) ∧
     startsWithEsc (bold t) ∧ startsWithEsc (reset t)) ∧
    (endsWithReset (red t) ∧ endsWithReset (green t) ∧ endsWithReset (blue t) ∧
     endsWithReset (bold t) ∧ endsWithReset (reset t)) ∧
    (containsText t (red t) ∧ containsText t (green t) ∧ containsText t (blue t) ∧
     containsText t (bold t) ∧ containsText t (reset t)) ∧
    (endsWithReset c.paint.colorized ∧ containsText c.string c.paint.colorized) ∧
    (endsWithReset c.reset.colorized ∧ containsText c.string c.reset.colorized) := by
  obtain ⟨col, s, r⟩ := c
  refine ⟨⟨rfl, rfl, rfl, rfl, rfl⟩,
    ⟨wrapped_endsWithReset _ t, wrapped_endsWithReset _ t, wrapped_endsWithReset _ t,
     wrapped_endsWithReset _ t, wrapped_endsWithReset _ t⟩,
    ⟨wrapped_containsText _ t _, wrapped_containsText _ t _, wrapped_containsText _ t _,
     wrapped_containsText _ t _, wrapped_containsText _ t _⟩, ?_, ?_⟩
  · cases col <;>
      exact ⟨wrapped_endsWithReset _ s, wrapped_containsText _ s _⟩
  · exact ⟨wrapped_endsWithReset _ s, wrapped_containsText _ s _⟩

end Colors
